import Mathlib

/-!
Verification development for the VibeNotes note/attachment subsystem.

The definitions below are a shallow embedding of the note routes
(`routes/notes.js`, hardened revision): the multer storage filename
generator, the upload `fileFilter`, the `cleanupFiles` helper, and the
five note handlers (create, get, update, delete note, delete attachment),
together with the fragments of Node's `path` module (POSIX flavour) that
those handlers call.  The database is a record of note and attachment
rows; the filesystem is the list of paths currently present on disk;
database / filesystem failures are injected through explicit parameters
(`failAt` for the n-th SQL statement of a handler, `failUnlink` for the
set of paths whose `unlinkSync` throws).
-/

namespace VibeNotes

/-! ## JS string primitives, character-list level -/

/-- JS `String.prototype.trim`: strip whitespace from both ends. -/
def jsTrim (s : String) : String :=
  String.mk (((s.data.dropWhile Char.isWhitespace).reverse.dropWhile Char.isWhitespace).reverse)

/-- List version of "is a leading segment of". -/
def isPre : List Char → List Char → Bool
  | [], _ => true
  | _ :: _, [] => false
  | a :: as, b :: bs => a == b && isPre as bs

/-- JS `String.prototype.startsWith`. -/
def jsStartsWith (s pre : String) : Bool := isPre pre.data s.data

/-! ## Node `path` module (POSIX semantics), character-list level -/

/-- Split a character list on `'/'` (segments of a POSIX path). -/
def splitSlash : List Char → List (List Char)
  | [] => [[]]
  | c :: rest =>
    if c = '/' then [] :: splitSlash rest
    else
      match splitSlash rest with
      | s :: ss => (c :: s) :: ss
      | [] => [[c]]

/-- Segment normalization: drop `""`/`"."`, resolve `".."` against the
accumulator; `allowAbove` keeps leading `".."` segments (relative paths),
while absolute paths drop them (cannot go above the root). -/
def normSegs (allowAbove : Bool) : List (List Char) → List (List Char) → List (List Char)
  | [], acc => acc.reverse
  | seg :: rest, acc =>
    if seg = [] ∨ seg = ['.'] then normSegs allowAbove rest acc
    else if seg = ['.', '.'] then
      match acc with
      | [] => if allowAbove then normSegs allowAbove rest [['.', '.']] else normSegs allowAbove rest []
      | top :: accRest =>
        if top = ['.', '.'] then normSegs allowAbove rest (['.', '.'] :: acc)
        else normSegs allowAbove rest accRest
    else normSegs allowAbove rest (seg :: acc)

/-- `path.normalize` (POSIX). -/
def normalizeChars (cs : List Char) : List Char :=
  if cs = [] then ['.']
  else
    let abs := cs.head? = some '/'
    let trail := cs.getLast? = some '/'
    let core := List.intercalate ['/'] (normSegs (!abs) (splitSlash cs) [])
    if abs then
      if core = [] then ['/']
      else '/' :: core ++ (if trail then ['/'] else [])
    else
      if core = [] then (if trail then ['.', '/'] else ['.'])
      else core ++ (if trail then ['/'] else [])

def normalize (s : String) : String := String.mk (normalizeChars s.data)

/-- `path.join`: drop empty parts, join with `'/'`, normalize. -/
def joinList (ps : List String) : String :=
  let joined := String.intercalate "/" (ps.filter (fun p => p ≠ ""))
  if joined = "" then "." else normalize joined

/-- Working directory used by `path.resolve` for relative inputs. -/
def cwdStr : String := "/srv/app"

/-- `path.resolve` on a single argument: make absolute, collapse
segments (never above the root), no trailing separator. -/
def resolve1 (p : String) : String :=
  let q := if jsStartsWith p "/" then p else cwdStr ++ "/" ++ p
  let core := List.intercalate ['/'] (normSegs false (splitSlash q.data) [])
  String.mk (if core = [] then ['/'] else '/' :: core)

/-- The JS replacement `/^(\.\.(\/|\\|$))+/ → ""` used by the delete
handlers: repeatedly strip a leading `".."` followed by `/`, `\` or
end-of-string. -/
def stripDD : List Char → List Char
  | '.' :: '.' :: [] => []
  | '.' :: '.' :: '/' :: rest => stripDD rest
  | '.' :: '.' :: '\\' :: rest => stripDD rest
  | cs => cs

def stripLeadingDotDot (s : String) : String := String.mk (stripDD s.data)

/-- Drop trailing `'/'` characters (Node's basename/extname ignore them). -/
def dropTrailSlashes (cs : List Char) : List Char :=
  (cs.reverse.dropWhile (fun c => c == '/')).reverse

/-- The characters after the last `'/'` (the basename part). -/
def lastSegChars (cs : List Char) : List Char :=
  ((dropTrailSlashes cs).reverse.takeWhile (fun c => !(c == '/'))).reverse

/-- Split at the last `'.'`: `some (pre, post)` with
`cs = pre ++ '.' :: post` and no `'.'` in `post`. -/
def splitLastDot : List Char → Option (List Char × List Char)
  | [] => none
  | c :: rest =>
    match splitLastDot rest with
    | some (pre, post) => some (c :: pre, post)
    | none => if c = '.' then some ([], rest) else none

/-- `path.extname` (POSIX): extension of the basename, `""` when the
only dot is the leading one (dotfiles) or the basename is `".."`. -/
def extname (s : String) : String :=
  let base := lastSegChars s.data
  if base = ['.', '.'] then ""
  else
    match splitLastDot base with
    | none => ""
    | some ([], _) => ""
    | some (_ :: _, post) => String.mk ('.' :: post)

/-- `path.basename(p, ext)` (POSIX): the basename with a trailing `ext`
removed when it is a proper suffix. -/
def basenameExt (p ext : String) : String :=
  let seg := lastSegChars p.data
  let e := ext.data
  if e.isEmpty then String.mk seg
  else if seg = e then String.mk seg
  else if e.isSuffixOf seg then String.mk (seg.take (seg.length - e.length))
  else String.mk seg

/-! ## Directory layout

`__dirname` of `routes/notes.js`; the handlers build every path from it:
`attachmentsDir = path.join(__dirname, '..', 'public', 'attachments')`,
`publicDir = path.join(__dirname, '..', 'public')`. -/

def dirnameStr : String := "/srv/app/routes"

def publicDirStr : String := joinList [dirnameStr, "..", "public"]

def attachmentsDirStr : String := joinList [dirnameStr, "..", "public", "attachments"]

def resolvedPublicDir : String := resolve1 publicDirStr

/-! ## Multer configuration: stored filename and file filter -/

/-- One decimal digit character (JS number-to-string building block). -/
def digitChar : Nat → Char
  | 0 => '0' | 1 => '1' | 2 => '2' | 3 => '3' | 4 => '4'
  | 5 => '5' | 6 => '6' | 7 => '7' | 8 => '8' | _ => '9'

/-- Decimal digit list, with structural fuel (any `fuel > n` is enough). -/
def natDigitsAux : Nat → Nat → List Char
  | 0, _ => []
  | fuel + 1, n =>
    if n < 10 then [digitChar n]
    else natDigitsAux fuel (n / 10) ++ [digitChar (n % 10)]

/-- Decimal digit list of a natural number (JS integer `toString`). -/
def natDigits (n : Nat) : List Char := natDigitsAux (n + 1) n

/-- Decimal rendering of a natural number, as interpolated by JS
template literals for integral numbers. -/
def natToStr (n : Nat) : String := String.mk (natDigits n)

/-- Numeric value of a digit character (proof infrastructure for
recovering the timestamp/random components from a stored filename). -/
def digitVal (c : Char) : Nat := c.toNat - 48

/-- Value of a decimal digit string (proof infrastructure). -/
def digitsVal (l : List Char) : Nat := l.foldl (fun a c => a * 10 + digitVal c) 0

/-- `[^a-zA-Z0-9]` replaced by `'_'` (the storage `filename` callback's
`baseName.replace(/[^a-zA-Z0-9]/g, '_')`). -/
def sanitizeChar (c : Char) : Char := if c.isAlphanum then c else '_'

/-- The sanitized base name used in the stored filename. -/
def sanitizedBaseName (s : String) : String := String.mk (s.data.map sanitizeChar)

/-- The multer storage `filename` callback:
`note-${Date.now()}-${Math.round(Math.random()*1E9)}-${sanitizedBaseName}${ext}`.
The timestamp and the random component are explicit parameters. -/
def storedFilename (ts rand : Nat) (originalname : String) : String :=
  let ext := extname originalname
  let base := basenameExt originalname ext
  "note-" ++ natToStr ts ++ "-" ++ natToStr rand ++ "-" ++ sanitizedBaseName base ++ ext

/-- The MIME whitelist of the upload `fileFilter`. -/
def allowedMimeTypes : List String :=
  ["image/jpeg", "image/jpg", "image/png", "image/gif", "image/webp",
   "application/pdf",
   "text/plain",
   "application/msword",
   "application/vnd.openxmlformats-officedocument.wordprocessingml.document",
   "application/vnd.ms-excel",
   "application/vnd.openxmlformats-officedocument.spreadsheetml.sheet"]

/-- The alternatives of the extension regex
`/\.(jpg|jpeg|png|gif|webp|pdf|txt|doc|docx|xls|xlsx)$/i`, with their
leading literal dot. -/
def allowedExtSuffixes : List String :=
  [".jpg", ".jpeg", ".png", ".gif", ".webp", ".pdf", ".txt", ".doc", ".docx", ".xls", ".xlsx"]

/-- `allowedExtensions.test s`: the case-insensitive regex matches `s`
iff the lowercased `s` ends in one of the dotted alternatives. -/
def allowedExtTest (s : String) : Bool :=
  allowedExtSuffixes.any (fun e => e.data.isSuffixOf (s.data.map Char.toLower))

/-- An uploaded file part as multer hands it to the handler; `filename`
is the stored name generated by the storage callback. -/
structure FilePayload where
  originalname : String
  filename : String
  mimetype : String
  size : Nat
deriving Repr, DecidableEq

/-- The upload `fileFilter`: both the declared MIME type and the
extension of the original filename must be whitelisted. -/
def fileFilter (f : FilePayload) : Bool :=
  allowedMimeTypes.contains f.mimetype && allowedExtTest (extname f.originalname)

def MAX_FILE_SIZE : Nat := 50 * 1024 * 1024

def MAX_FILES : Nat := 10

/-- The multer middleware succeeds iff the batch respects the count
limit and every part passes the filter and the size limit. -/
def multerOk (files : List FilePayload) : Bool :=
  decide (files.length ≤ MAX_FILES) &&
    files.all (fun f => fileFilter f && decide (f.size ≤ MAX_FILE_SIZE))

/-- `file.path` as multer records it: the storage destination joined
with the generated filename. -/
def fpath (f : FilePayload) : String := joinList [attachmentsDirStr, f.filename]

/-! ## Data model (database rows, request values) -/

structure Note where
  id : Nat
  userId : Nat
  title : String
  content : String
  isPublic : Bool
deriving Repr, DecidableEq

structure AttachmentRow where
  id : Nat
  noteId : Nat
  originalFilename : String
  storedFilename : String
  filePath : String
  fileSize : Nat
  mimeType : String
deriving Repr, DecidableEq

structure DB where
  notes : List Note
  attachments : List AttachmentRow
  nextNoteId : Nat
  nextAttachId : Nat
deriving Repr, DecidableEq

/-- A request-body value for the `is_public` field (form string, JSON
boolean, or absent). -/
inductive JVal where
  | undef
  | str (s : String)
  | jbool (b : Bool)
deriving Repr, DecidableEq

/-- `is_public === 'true' || is_public === true`. -/
def isPublicCoerce : JVal → Bool
  | .str s => s = "true"
  | .jbool b => b
  | .undef => false

/-- JS falsiness of a form field that is a string or absent
(`!title` / `!content`). -/
def falsyStr : Option String → Bool
  | none => true
  | some s => s = ""

/-- The `cleanupFiles` helper: unlink each uploaded file's path. -/
def cleanupFiles (files : List FilePayload) (disk : List String) : List String :=
  files.foldl (fun d f => d.filter (fun p => !(p == fpath f))) disk

/-! ## Handlers (hardened `routes/notes.js`)

Each handler takes the database, the disk (list of present paths) and
the request data and returns the response together with the new
database and disk.  SQL statements inside a handler's `try` block are
numbered in execution order; `failAt = some q` makes statement `q`
throw, which the `catch` block turns into a 500 after running
`cleanupFiles`. -/

def MAX_TITLE_LEN : Nat := 255

def MAX_CONTENT_LEN : Nat := 1000000

/-- The attachment row built by one `INSERT INTO note_attachments`. -/
def attRowFor (db : DB) (noteId : Nat) (f : FilePayload) : AttachmentRow :=
  ⟨db.nextAttachId, noteId, f.originalname, f.filename,
    "/attachments/" ++ f.filename, f.size, f.mimetype⟩

/-- Database state after one attachment `INSERT`. -/
def dbAfterInsert (db : DB) (noteId : Nat) (f : FilePayload) : DB :=
  { db with attachments := db.attachments ++ [attRowFor db noteId f],
            nextAttachId := db.nextAttachId + 1 }

/-- The `INSERT INTO note_attachments` loop: rows inserted one by one;
a failure keeps the rows already committed (no transaction). -/
def insertRows (db : DB) (noteId : Nat) (files : List FilePayload)
    (failAt : Option Nat) (q : Nat) : Except DB (DB × List AttachmentRow) :=
  match files with
  | [] => .ok (db, [])
  | f :: rest =>
    if failAt = some q then .error db
    else
      match insertRows (dbAfterInsert db noteId f) noteId rest failAt (q + 1) with
      | .error dbe => .error dbe
      | .ok (dbf, rows) => .ok (dbf, attRowFor db noteId f :: rows)

inductive CreateRes where
  | badRequest (msg : String)
  | serverError
  | created (note : Note) (rows : List AttachmentRow)
deriving Repr, DecidableEq

structure CreateOut where
  res : CreateRes
  db : DB
  disk : List String
deriving Repr, DecidableEq

/-- `POST /` handler body (after multer).  Statement 0 is the note
`INSERT`, statement `i + 1` the i-th attachment `INSERT`. -/
def createNote (db : DB) (disk : List String) (userId : Nat)
    (title content : Option String) (is_public : JVal)
    (files : List FilePayload) (failAt : Option Nat) : CreateOut :=
  if falsyStr title || falsyStr content then
    ⟨.badRequest "Title and content are required", db, cleanupFiles files disk⟩
  else if (jsTrim (title.getD "")).length = 0 then
    ⟨.badRequest "Title cannot be empty", db, cleanupFiles files disk⟩
  else if (jsTrim (title.getD "")).length > MAX_TITLE_LEN then
    ⟨.badRequest "Title must be 255 characters or less", db, cleanupFiles files disk⟩
  else if (jsTrim (content.getD "")).length = 0 then
    ⟨.badRequest "Content cannot be empty", db, cleanupFiles files disk⟩
  else if (jsTrim (content.getD "")).length > MAX_CONTENT_LEN then
    ⟨.badRequest "Content is too long (maximum 1MB)", db, cleanupFiles files disk⟩
  else if failAt = some 0 then
    ⟨.serverError, db, cleanupFiles files disk⟩
  else
    let note : Note := ⟨db.nextNoteId, userId, jsTrim (title.getD ""),
                        jsTrim (content.getD ""), isPublicCoerce is_public⟩
    let db1 : DB := { db with notes := db.notes ++ [note], nextNoteId := db.nextNoteId + 1 }
    match insertRows db1 note.id files failAt 1 with
    | .error db2 => ⟨.serverError, db2, cleanupFiles files disk⟩
    | .ok (db2, rows) => ⟨.created note rows, db2, disk⟩

/-- The full `POST /` request: multer screens and stores the batch,
then the handler runs.  When multer rejects (filter, size or count),
the files it wrote are removed again and the wrapper answers 400. -/
def postNotes (db : DB) (disk : List String) (userId : Nat)
    (title content : Option String) (is_public : JVal)
    (files : List FilePayload) (failAt : Option Nat) : CreateOut :=
  if multerOk files then
    createNote db (disk ++ files.map fpath) userId title content is_public files failAt
  else
    ⟨.badRequest "File upload error", db, disk⟩

inductive GetRes where
  | notFound
  | found (note : Note) (rows : List AttachmentRow) (isOwner : Bool)
deriving Repr, DecidableEq

/-- `GET /:id`: the note is returned iff the requester owns it or it is
public; otherwise 404. -/
def getNote (db : DB) (noteId userId : Nat) : GetRes :=
  match db.notes.find? (fun n => n.id == noteId && (n.userId == userId || n.isPublic)) with
  | none => .notFound
  | some n => .found n (db.attachments.filter (fun a => a.noteId == noteId)) (n.userId == userId)

/-- `SELECT id FROM notes WHERE id = $1 AND user_id = $2` is non-empty. -/
def ownerCheck (db : DB) (noteId userId : Nat) : Bool :=
  db.notes.any (fun n => n.id == noteId && n.userId == userId)

inductive UpdateRes where
  | badRequest (msg : String)
  | notFound
  | serverError
  | updated (note : Note) (rows : List AttachmentRow)
deriving Repr, DecidableEq

structure UpdateOut where
  res : UpdateRes
  db : DB
  disk : List String
deriving Repr, DecidableEq

/-- The `UPDATE notes SET ... WHERE id = $4 AND user_id = $5`. -/
def applyUpdate (db : DB) (noteId userId : Nat) (t c : String) (pub : Bool) : DB :=
  { db with notes := db.notes.map (fun n =>
      if n.id == noteId && n.userId == userId then
        { n with title := t, content := c, isPublic := pub }
      else n) }

/-- `PUT /:id` handler body (after multer).  Statement 0 is the
ownership `SELECT`, statement 1 the `UPDATE`, statement `i + 2` the
i-th attachment `INSERT`. -/
def updateNote (db : DB) (disk : List String) (noteId userId : Nat)
    (title content : Option String) (is_public : JVal)
    (files : List FilePayload) (failAt : Option Nat) : UpdateOut :=
  if falsyStr title || falsyStr content then
    ⟨.badRequest "Title and content are required", db, cleanupFiles files disk⟩
  else if (jsTrim (title.getD "")).length = 0 then
    ⟨.badRequest "Title cannot be empty", db, cleanupFiles files disk⟩
  else if (jsTrim (title.getD "")).length > MAX_TITLE_LEN then
    ⟨.badRequest "Title must be 255 characters or less", db, cleanupFiles files disk⟩
  else if (jsTrim (content.getD "")).length = 0 then
    ⟨.badRequest "Content cannot be empty", db, cleanupFiles files disk⟩
  else if (jsTrim (content.getD "")).length > MAX_CONTENT_LEN then
    ⟨.badRequest "Content is too long (maximum 1MB)", db, cleanupFiles files disk⟩
  else if failAt = some 0 then
    ⟨.serverError, db, cleanupFiles files disk⟩
  else if !ownerCheck db noteId userId then
    ⟨.notFound, db, cleanupFiles files disk⟩
  else if failAt = some 1 then
    ⟨.serverError, db, cleanupFiles files disk⟩
  else
    let pub := isPublicCoerce is_public
    let db1 := applyUpdate db noteId userId (jsTrim (title.getD "")) (jsTrim (content.getD "")) pub
    match insertRows db1 noteId files failAt 2 with
    | .error db2 => ⟨.serverError, db2, cleanupFiles files disk⟩
    | .ok (db2, rows) =>
      ⟨.updated ⟨noteId, userId, jsTrim (title.getD ""), jsTrim (content.getD ""), pub⟩ rows,
        db2, disk⟩

/-- The full `PUT /:id` request: the same multer middleware screens and
stores the batch, then the update handler runs.  When multer rejects
(filter, size or count), the files it wrote are removed again and the
wrapper answers 400. -/
def putNotes (db : DB) (disk : List String) (noteId userId : Nat)
    (title content : Option String) (is_public : JVal)
    (files : List FilePayload) (failAt : Option Nat) : UpdateOut :=
  if multerOk files then
    updateNote db (disk ++ files.map fpath) noteId userId title content is_public files failAt
  else
    ⟨.badRequest "File upload error", db, disk⟩

/-! ## Stored-path sanitization and the delete handlers -/

/-- A filesystem operation performed by a handler. -/
inductive FsOp where
  | existsSync (p : String)
  | unlinkSync (p : String)
deriving Repr, DecidableEq

def FsOp.path : FsOp → String
  | .existsSync p => p
  | .unlinkSync p => p

/-- The delete handlers' per-row path computation:
`path.join(__dirname, '..', 'public', path.normalize(fp).replace(/^(\.\.(\/|\\|$))+/, ''))`. -/
def sanitizedJoin (fp : String) : String :=
  joinList [dirnameStr, "..", "public", stripLeadingDotDot (normalize fp)]

/-- The guard `path.resolve(filePath).startsWith(path.resolve(publicDir))`. -/
def pathAccepted (fp : String) : Bool :=
  jsStartsWith (resolve1 (sanitizedJoin fp)) resolvedPublicDir

/-- Outcome of the blob-unlink phase: the filesystem operations
performed, the resulting disk, and whether `unlinkSync` threw. -/
structure UnlinkOut where
  ops : List FsOp
  disk : List String
  threw : Bool
deriving Repr, DecidableEq

/-- Handling of one stored path: existence check and unlink only when
the resolved path stays under the public root; an unlink whose path is
in `failUnlink` throws. -/
def unlinkStep (disk : List String) (failUnlink : List String) (fp : String) : UnlinkOut :=
  let filePath := sanitizedJoin fp
  if pathAccepted fp then
    if disk.contains filePath then
      if failUnlink.contains filePath then ⟨[.existsSync filePath], disk, true⟩
      else ⟨[.existsSync filePath, .unlinkSync filePath],
            disk.filter (fun p => !(p == filePath)), false⟩
    else ⟨[.existsSync filePath], disk, false⟩
  else ⟨[], disk, false⟩

/-- The `forEach` over attachment rows of `DELETE /:id`: a throw aborts
the iteration, keeping the unlinks already performed. -/
def unlinkAll (paths : List String) (disk : List String) (failUnlink : List String) :
    UnlinkOut :=
  match paths with
  | [] => ⟨[], disk, false⟩
  | fp :: rest =>
    let s := unlinkStep disk failUnlink fp
    if s.threw then s
    else
      let r := unlinkAll rest s.disk failUnlink
      ⟨s.ops ++ r.ops, r.disk, r.threw⟩

inductive DeleteRes where
  | notFound
  | deleted
  | serverError
deriving Repr, DecidableEq

structure DeleteOut where
  res : DeleteRes
  db : DB
  disk : List String
  fsOps : List FsOp
deriving Repr, DecidableEq

/-- `DELETE /:id`: ownership check, then blob deletion for every
attachment row of the note, then the row `DELETE` (whose `ON DELETE
CASCADE` removes the attachment rows); a thrown unlink reaches the
`catch` block before the row `DELETE` runs. -/
def deleteNote (db : DB) (disk : List String) (noteId userId : Nat)
    (failUnlink : List String) : DeleteOut :=
  if !ownerCheck db noteId userId then ⟨.notFound, db, disk, []⟩
  else
    let u := unlinkAll ((db.attachments.filter (fun a => a.noteId == noteId)).map
        (fun a => a.filePath)) disk failUnlink
    if u.threw then ⟨.serverError, db, u.disk, u.ops⟩
    else
      ⟨.deleted,
        { db with
          notes := db.notes.filter (fun n => !(n.id == noteId && n.userId == userId)),
          attachments := db.attachments.filter (fun a => !(a.noteId == noteId)) },
        u.disk, u.ops⟩

inductive AttDelRes where
  | noteNotFound
  | attachmentNotFound
  | deleted
  | serverError
deriving Repr, DecidableEq

structure AttDelOut where
  res : AttDelRes
  db : DB
  disk : List String
  fsOps : List FsOp
deriving Repr, DecidableEq

/-- `DELETE /:id/attachments/:attachmentId`: ownership check, row
lookup, guarded blob unlink, then the row `DELETE`. -/
def deleteAttachment (db : DB) (disk : List String) (noteId attachmentId userId : Nat)
    (failUnlink : List String) : AttDelOut :=
  if !ownerCheck db noteId userId then ⟨.noteNotFound, db, disk, []⟩
  else
    match db.attachments.find? (fun a => a.id == attachmentId && a.noteId == noteId) with
    | none => ⟨.attachmentNotFound, db, disk, []⟩
    | some row =>
      let s := unlinkStep disk failUnlink row.filePath
      if s.threw then ⟨.serverError, db, s.disk, s.ops⟩
      else
        ⟨.deleted,
          { db with attachments :=
              db.attachments.filter (fun a => !(a.id == attachmentId && a.noteId == noteId)) },
          s.disk, s.ops⟩

/-- Projection used to state that the attachment-insert loop never
touches the `notes` table. -/
def exceptNotes : Except DB (DB × List AttachmentRow) → List Note
  | .error d => d.notes
  | .ok (d, _) => d.notes

/-! ## Spec-side comparison definition -/

/-- Formalization of the spec's words "sanitization strips all
characters outside an alphanumeric set from the base name": the
non-alphanumeric characters are removed.  To be compared with the
source's `sanitizedBaseName`, which replaces them by `'_'`. -/
def specStrippedBaseName (s : String) : String :=
  String.mk (s.data.filter (fun c => c.isAlphanum))

/-! ## Concrete fixtures used in counterexamples and witnesses -/

def f0c : FilePayload := ⟨"a.png", "note-1-2-a.png", "image/png", 4⟩

def fBad : FilePayload := ⟨"x.exe", "note-1-2-x.exe", "image/png", 4⟩

def note1 : Note := ⟨1, 1, "T", "C", false⟩

def db0 : DB := ⟨[], [], 1, 1⟩

def db3c : DB := ⟨[note1], [⟨1, 1, "orig", "st", "../../etc/passwd", 3, "text/plain"⟩], 2, 2⟩

def p0 : String := "/attachments/../attachments/x.png"

def db2c : DB := ⟨[note1], [⟨1, 1, "o", "s", p0, 3, "image/png"⟩], 2, 2⟩

def db7c : DB := ⟨[note1], [⟨1, 1, "o", "a.png", "/attachments/a.png", 3, "image/png"⟩], 2, 2⟩

def db10c : DB := ⟨[⟨1, 1, "T", "C", true⟩], [], 2, 1⟩

/-! ## Helper lemmas -/

theorem mem_of_mem_cleanupFiles :
    ∀ (files : List FilePayload) (disk : List String) (x : String),
      x ∈ cleanupFiles files disk → x ∈ disk := by
  intro files
  induction files with
  | nil => intro disk x h; exact h
  | cons f t ih =>
    intro disk x h
    exact (List.mem_filter.mp (ih _ _ h)).1

theorem fpath_not_mem_cleanupFiles :
    ∀ (files : List FilePayload) (disk : List String) (f : FilePayload),
      f ∈ files → fpath f ∉ cleanupFiles files disk := by
  intro files
  induction files with
  | nil => intro disk f h; cases h
  | cons g t ih =>
    intro disk f hf hmem
    rcases List.mem_cons.mp hf with rfl | hf'
    · have h' := mem_of_mem_cleanupFiles t _ _ hmem
      have h2 := (List.mem_filter.mp h').2
      simp at h2
    · exact ih _ _ hf' hmem

theorem dbAfterInsert_notes (db : DB) (noteId : Nat) (f : FilePayload) :
    (dbAfterInsert db noteId f).notes = db.notes := rfl

theorem insertRows_notes :
    ∀ (files : List FilePayload) (db : DB) (noteId : Nat) (failAt : Option Nat) (q : Nat),
      exceptNotes (insertRows db noteId files failAt q) = db.notes := by
  intro files
  induction files with
  | nil => intro db noteId failAt q; rfl
  | cons f t ih =>
    intro db noteId failAt q
    unfold insertRows
    by_cases hq : failAt = some q
    · simp [hq, exceptNotes]
    · simp only [if_neg hq]
      have h := ih (dbAfterInsert db noteId f) noteId failAt (q + 1)
      cases hrec : insertRows (dbAfterInsert db noteId f) noteId t failAt (q + 1) with
      | error dbe =>
        rw [hrec] at h
        simpa [exceptNotes, dbAfterInsert_notes] using h
      | ok p =>
        rw [hrec] at h
        obtain ⟨dbf, rows⟩ := p
        simpa [exceptNotes, dbAfterInsert_notes] using h

/-! ## C1: cleanup after a metadata-phase failure -/

/-- C1 (counterexample).  A create whose metadata phase fails at the
attachment `INSERT` (statement 1), after the note `INSERT` succeeded:
the response is the 500 error and the uploaded file is cleaned up, but
a new note row *does* persist — the claim's "no new note row" is false
for this failure point. -/
theorem c1_counterexample :
    (createNote db0 [fpath f0c] 1 (some "T") (some "C") .undef [f0c] (some 1)).res
        = .serverError
    ∧ (createNote db0 [fpath f0c] 1 (some "T") (some "C") .undef [f0c] (some 1)).db.notes
        = [⟨1, 1, "T", "C", false⟩]
    ∧ db0.notes = []
    ∧ (createNote db0 [fpath f0c] 1 (some "T") (some "C") .undef [f0c] (some 1)).disk
        = [] := by
  refine ⟨rfl, rfl, rfl, rfl⟩

/-- C1 (amended).  Whenever a create or update surfaces a server error
from its metadata phase, every uploaded file of the request has been
removed from disk (zero orphan blobs); for create, the database is
unchanged when the failing statement is the note `INSERT` itself
(failure at a later attachment `INSERT` keeps the already-inserted
note row). -/
theorem createUpdate_metadata_failure_cleanup (db : DB) (disk : List String)
    (uid noteId : Nat) (t c : Option String) (pub : JVal)
    (files : List FilePayload) (failAt : Option Nat) :
    ((createNote db disk uid t c pub files failAt).res = .serverError →
      (createNote db disk uid t c pub files failAt).disk = cleanupFiles files disk
      ∧ (∀ f ∈ files, fpath f ∉ (createNote db disk uid t c pub files failAt).disk)
      ∧ (failAt = some 0 → (createNote db disk uid t c pub files failAt).db = db))
    ∧ ((updateNote db disk noteId uid t c pub files failAt).res = .serverError →
      (updateNote db disk noteId uid t c pub files failAt).disk = cleanupFiles files disk
      ∧ ∀ f ∈ files, fpath f ∉ (updateNote db disk noteId uid t c pub files failAt).disk) := by
  constructor
  · unfold createNote
    dsimp only
    repeat' split
    all_goals intro h
    all_goals first
      | exact ⟨rfl, fun f hf => fpath_not_mem_cleanupFiles files disk f hf, fun _ => rfl⟩
      | exact ⟨rfl, fun f hf => fpath_not_mem_cleanupFiles files disk f hf,
               fun h0 => absurd h0 (by assumption)⟩
      | simp at h
  · unfold updateNote
    dsimp only
    repeat' split
    all_goals intro h
    all_goals first
      | exact ⟨rfl, fun f hf => fpath_not_mem_cleanupFiles files disk f hf⟩
      | simp at h

/-- C1 (witness): the amended theorem applied at a concrete failing
create (failure injected at the note `INSERT`). -/
theorem createUpdate_metadata_failure_cleanup_witness :
    (createNote db0 [fpath f0c] 1 (some "T") (some "C") .undef [f0c] (some 0)).disk
        = cleanupFiles [f0c] [fpath f0c]
    ∧ (createNote db0 [fpath f0c] 1 (some "T") (some "C") .undef [f0c] (some 0)).db = db0 := by
  have h := (createUpdate_metadata_failure_cleanup db0 [fpath f0c] 1 0
      (some "T") (some "C") .undef [f0c] (some 0)).1 (by rfl)
  exact ⟨h.1, h.2.2 rfl⟩

/-! ## Stored-path confinement lemmas (delete handlers) -/

theorem unlinkStep_eq_notOnDisk {disk failUnlink : List String} {fp : String}
    (h : pathAccepted fp = true) (h2 : disk.contains (sanitizedJoin fp) = false) :
    unlinkStep disk failUnlink fp = ⟨[.existsSync (sanitizedJoin fp)], disk, false⟩ := by
  unfold unlinkStep
  dsimp only
  rw [if_pos h, if_neg (by rw [h2]; simp)]

theorem unlinkStep_eq_fail {disk failUnlink : List String} {fp : String}
    (h : pathAccepted fp = true) (h2 : disk.contains (sanitizedJoin fp) = true)
    (h3 : failUnlink.contains (sanitizedJoin fp) = true) :
    unlinkStep disk failUnlink fp = ⟨[.existsSync (sanitizedJoin fp)], disk, true⟩ := by
  unfold unlinkStep
  dsimp only
  rw [if_pos h, if_pos h2, if_pos h3]

theorem unlinkStep_eq_unlink {disk failUnlink : List String} {fp : String}
    (h : pathAccepted fp = true) (h2 : disk.contains (sanitizedJoin fp) = true)
    (h3 : failUnlink.contains (sanitizedJoin fp) = false) :
    unlinkStep disk failUnlink fp
      = ⟨[.existsSync (sanitizedJoin fp), .unlinkSync (sanitizedJoin fp)],
         disk.filter (fun p => !(p == sanitizedJoin fp)), false⟩ := by
  unfold unlinkStep
  dsimp only
  rw [if_pos h, if_pos h2, if_neg (by rw [h3]; simp)]

theorem unlinkStep_eq_rejected {disk failUnlink : List String} {fp : String}
    (h : pathAccepted fp = false) :
    unlinkStep disk failUnlink fp = ⟨[], disk, false⟩ := by
  unfold unlinkStep
  dsimp only
  rw [if_neg (by rw [h]; simp)]

theorem unlinkStep_ops_inside (disk failUnlink : List String) (fp : String) :
    ∀ op ∈ (unlinkStep disk failUnlink fp).ops,
      jsStartsWith (resolve1 (FsOp.path op)) resolvedPublicDir = true := by
  intro op hop
  by_cases hacc : pathAccepted fp = true
  · by_cases h2 : disk.contains (sanitizedJoin fp) = true
    · by_cases h3 : failUnlink.contains (sanitizedJoin fp) = true
      · rw [unlinkStep_eq_fail hacc h2 h3] at hop
        simp only [List.mem_singleton] at hop
        subst hop
        exact hacc
      · rw [unlinkStep_eq_unlink hacc h2 (by simpa using h3)] at hop
        simp only [List.mem_cons, List.mem_singleton] at hop
        rcases hop with rfl | rfl | hop
        · exact hacc
        · exact hacc
        · cases hop
    · rw [unlinkStep_eq_notOnDisk hacc (by simpa using h2)] at hop
      simp only [List.mem_singleton] at hop
      subst hop
      exact hacc
  · rw [unlinkStep_eq_rejected (by simpa using hacc)] at hop
    cases hop

theorem unlinkStep_disk_subset (disk failUnlink : List String) (fp : String) :
    ∀ x ∈ (unlinkStep disk failUnlink fp).disk, x ∈ disk := by
  intro x hx
  unfold unlinkStep at hx
  dsimp only at hx
  split at hx
  · split at hx
    · split at hx
      · exact hx
      · exact (List.mem_filter.mp hx).1
    · exact hx
  · exact hx

theorem unlinkStep_removed {disk failUnlink : List String} {fp : String}
    (ht : (unlinkStep disk failUnlink fp).threw = false)
    (hacc : pathAccepted fp = true) :
    sanitizedJoin fp ∉ (unlinkStep disk failUnlink fp).disk := by
  intro hx
  by_cases h2 : disk.contains (sanitizedJoin fp) = true
  · by_cases h3 : failUnlink.contains (sanitizedJoin fp) = true
    · rw [unlinkStep_eq_fail hacc h2 h3] at ht
      cases ht
    · rw [unlinkStep_eq_unlink hacc h2 (by simpa using h3)] at hx
      have h4 := (List.mem_filter.mp hx).2
      simp at h4
  · rw [unlinkStep_eq_notOnDisk hacc (by simpa using h2)] at hx
    exact h2 (List.elem_iff.mpr hx)

set_option maxHeartbeats 2000000 in
theorem unlinkAll_ops_inside :
    ∀ (paths disk failUnlink : List String),
      ∀ op ∈ (unlinkAll paths disk failUnlink).ops,
        jsStartsWith (resolve1 (FsOp.path op)) resolvedPublicDir = true := by
  intro paths
  induction paths with
  | nil =>
    intro disk failUnlink op hop
    cases hop
  | cons fp rest ih =>
    intro disk failUnlink op hop
    unfold unlinkAll at hop
    dsimp only at hop
    by_cases ht : (unlinkStep disk failUnlink fp).threw = true
    · rw [if_pos ht] at hop
      exact unlinkStep_ops_inside disk failUnlink fp op hop
    · rw [if_neg ht] at hop
      dsimp only at hop
      rcases List.mem_append.mp hop with hop1 | hop2
      · exact unlinkStep_ops_inside disk failUnlink fp op hop1
      · exact ih _ failUnlink op hop2

set_option maxHeartbeats 2000000 in
theorem unlinkAll_disk_subset :
    ∀ (paths disk failUnlink : List String),
      ∀ x ∈ (unlinkAll paths disk failUnlink).disk, x ∈ disk := by
  intro paths
  induction paths with
  | nil =>
    intro disk failUnlink x hx
    exact hx
  | cons fp rest ih =>
    intro disk failUnlink x hx
    unfold unlinkAll at hx
    dsimp only at hx
    by_cases ht : (unlinkStep disk failUnlink fp).threw = true
    · rw [if_pos ht] at hx
      exact unlinkStep_disk_subset disk failUnlink fp x hx
    · rw [if_neg ht] at hx
      dsimp only at hx
      exact unlinkStep_disk_subset disk failUnlink fp x (ih _ failUnlink x hx)

set_option maxHeartbeats 2000000 in
theorem unlinkAll_removes :
    ∀ (paths disk failUnlink : List String),
      (unlinkAll paths disk failUnlink).threw = false →
      ∀ fp ∈ paths, pathAccepted fp = true →
        sanitizedJoin fp ∉ (unlinkAll paths disk failUnlink).disk := by
  intro paths
  induction paths with
  | nil =>
    intro disk failUnlink _ fp hfp
    cases hfp
  | cons fp0 rest ih =>
    intro disk failUnlink hthrew fp hfp hacc
    unfold unlinkAll at hthrew ⊢
    dsimp only at hthrew ⊢
    by_cases ht : (unlinkStep disk failUnlink fp0).threw = true
    · rw [if_pos ht] at hthrew
      exact absurd hthrew (by simp [ht])
    · rw [if_neg ht] at hthrew ⊢
      dsimp only at hthrew ⊢
      rcases List.mem_cons.mp hfp with rfl | hfp'
      · intro hmem
        exact unlinkStep_removed (by simpa using ht) hacc
          (unlinkAll_disk_subset rest _ failUnlink _ hmem)
      · exact ih _ failUnlink hthrew fp hfp' hacc

/-! ## C4: private notes are NotFound for non-owners -/

/-- C4.  If every note row carrying the requested id is non-public and
not owned by the requester, `GET /:id` answers NotFound (the ownership
/ visibility condition is part of the SQL `WHERE` clause; there is no
Forbidden response at all). -/
theorem getNote_private_notFound (db : DB) (noteId uid : Nat)
    (h : ∀ n ∈ db.notes, n.id = noteId → (n.isPublic = false ∧ n.userId ≠ uid)) :
    getNote db noteId uid = .notFound := by
  unfold getNote
  have hfind : db.notes.find?
      (fun n => n.id == noteId && (n.userId == uid || n.isPublic)) = none := by
    rw [List.find?_eq_none]
    intro n hn
    by_cases hid : n.id = noteId
    · obtain ⟨hpub, howner⟩ := h n hn hid
      simp [hid, hpub, howner]
    · simp [hid]
  rw [hfind]

/-- C4 (witness): a concrete private note fetched by a non-owner. -/
theorem getNote_private_notFound_witness :
    getNote ⟨[note1], [], 2, 1⟩ 1 2 = .notFound := by
  have h := getNote_private_notFound ⟨[note1], [], 2, 1⟩ 1 2 (by decide)
  exact h

/-! ## C5: non-existence and non-ownership are indistinguishable -/

/-- C5.  For update and delete, a run against a database where the id
does not exist and a run where the note exists but belongs to someone
else produce the same NotFound response, with no change to the
database; for update, both runs also transform the disk identically
(the uploaded files of the request are cleaned up in both). -/
theorem updateDelete_notFound_indistinguishable
    (db1 db2 : DB) (disk : List String) (noteId uid : Nat)
    (t c : Option String) (pub : JVal) (files : List FilePayload) (failAt : Option Nat)
    (ht : falsyStr t = false) (ht0 : (jsTrim (t.getD "")).length ≠ 0)
    (htm : ¬(jsTrim (t.getD "")).length > MAX_TITLE_LEN)
    (hc : falsyStr c = false) (hc0 : (jsTrim (c.getD "")).length ≠ 0)
    (hcm : ¬(jsTrim (c.getD "")).length > MAX_CONTENT_LEN)
    (hfa : failAt ≠ some 0)
    (h1 : ∀ n ∈ db1.notes, n.id ≠ noteId)
    (h2 : ∀ n ∈ db2.notes, n.id = noteId → n.userId ≠ uid) :
    updateNote db1 disk noteId uid t c pub files failAt
        = ⟨.notFound, db1, cleanupFiles files disk⟩
    ∧ updateNote db2 disk noteId uid t c pub files failAt
        = ⟨.notFound, db2, cleanupFiles files disk⟩
    ∧ (updateNote db1 disk noteId uid t c pub files failAt).res
        = (updateNote db2 disk noteId uid t c pub files failAt).res
    ∧ deleteNote db1 disk noteId uid [] = ⟨.notFound, db1, disk, []⟩
    ∧ deleteNote db2 disk noteId uid [] = ⟨.notFound, db2, disk, []⟩
    ∧ (deleteNote db1 disk noteId uid []).res = (deleteNote db2 disk noteId uid []).res := by
  have howner1 : ownerCheck db1 noteId uid = false := by
    unfold ownerCheck
    rw [List.any_eq_false]
    intro n hn
    simp [h1 n hn]
  have howner2 : ownerCheck db2 noteId uid = false := by
    unfold ownerCheck
    rw [List.any_eq_false]
    intro n hn
    by_cases hid : n.id = noteId
    · simp [hid, h2 n hn hid]
    · simp [hid]
  have hu1 : updateNote db1 disk noteId uid t c pub files failAt
      = ⟨.notFound, db1, cleanupFiles files disk⟩ := by
    unfold updateNote
    rw [if_neg (by simp [ht, hc]), if_neg ht0, if_neg htm, if_neg hc0, if_neg hcm,
      if_neg hfa, if_pos (by simp [howner1])]
  have hu2 : updateNote db2 disk noteId uid t c pub files failAt
      = ⟨.notFound, db2, cleanupFiles files disk⟩ := by
    unfold updateNote
    rw [if_neg (by simp [ht, hc]), if_neg ht0, if_neg htm, if_neg hc0, if_neg hcm,
      if_neg hfa, if_pos (by simp [howner2])]
  have hd1 : deleteNote db1 disk noteId uid [] = ⟨.notFound, db1, disk, []⟩ := by
    unfold deleteNote
    rw [if_pos (by simp [howner1])]
  have hd2 : deleteNote db2 disk noteId uid [] = ⟨.notFound, db2, disk, []⟩ := by
    unfold deleteNote
    rw [if_pos (by simp [howner2])]
  refine ⟨hu1, hu2, ?_, hd1, hd2, ?_⟩
  · rw [hu1, hu2]
  · rw [hd1, hd2]

/-- C5 (witness): a concrete pair of runs — id 9 absent vs. note 9
owned by user 7 — updated and deleted by user 1. -/
theorem updateDelete_notFound_indistinguishable_witness :
    updateNote db0 [] 9 1 (some "T") (some "C") .undef [] none = ⟨.notFound, db0, []⟩
    ∧ updateNote ⟨[⟨9, 7, "T", "C", false⟩], [], 10, 1⟩ [] 9 1 (some "T") (some "C") .undef [] none
        = ⟨.notFound, ⟨[⟨9, 7, "T", "C", false⟩], [], 10, 1⟩, []⟩ := by
  have h := updateDelete_notFound_indistinguishable db0 ⟨[⟨9, 7, "T", "C", false⟩], [], 10, 1⟩
      [] 9 1 (some "T") (some "C") .undef [] none
      (by decide) (by decide) (by decide) (by decide) (by decide) (by decide)
      (by decide) (by decide) (by decide)
  exact ⟨h.1, h.2.1⟩

/-! ## C10: the is_public coercion -/

/-- C10.  The persisted flag is `isPublicCoerce` of the request field
on both create and update, and the coercion is `true` exactly for the
string `"true"` or the boolean `true`: a successful create persists
exactly that flag for every field value, a successful update rewrites
the owner's note row with exactly that flag for every field value, and
in particular an update that omits `is_public` (undefined field)
persists `is_public = false`, making a public note private. -/
theorem isPublic_coercion (db : DB) (disk : List String) (noteId uid : Nat)
    (t c : Option String)
    (ht : falsyStr t = false) (ht0 : (jsTrim (t.getD "")).length ≠ 0)
    (htm : ¬(jsTrim (t.getD "")).length > MAX_TITLE_LEN)
    (hc : falsyStr c = false) (hc0 : (jsTrim (c.getD "")).length ≠ 0)
    (hcm : ¬(jsTrim (c.getD "")).length > MAX_CONTENT_LEN)
    (howner : ownerCheck db noteId uid = true) :
    (∀ v : JVal, isPublicCoerce v = true ↔ (v = .str "true" ∨ v = .jbool true))
    ∧ (∀ v : JVal, ∀ n ∈ (createNote db disk uid t c v [] none).db.notes,
        n ∉ db.notes → n.isPublic = isPublicCoerce v)
    ∧ (∀ v : JVal, ∀ n ∈ (updateNote db disk noteId uid t c v [] none).db.notes,
        n.id = noteId → n.userId = uid → n.isPublic = isPublicCoerce v)
    ∧ (∀ n ∈ (updateNote db disk noteId uid t c .undef [] none).db.notes,
        n.id = noteId → n.userId = uid → n.isPublic = false) := by
  have hupdate : ∀ v : JVal, ∀ n ∈ (updateNote db disk noteId uid t c v [] none).db.notes,
      n.id = noteId → n.userId = uid → n.isPublic = isPublicCoerce v := by
    intro v n hn hid huid
    unfold updateNote at hn
    rw [if_neg (by simp [ht, hc]), if_neg ht0, if_neg htm, if_neg hc0, if_neg hcm,
      if_neg (by simp), if_neg (by simp [howner]), if_neg (by simp)] at hn
    simp only [insertRows] at hn
    unfold applyUpdate at hn
    simp only [DB.notes] at hn
    rcases List.mem_map.mp hn with ⟨x, _, hx⟩
    by_cases hmatch : (x.id == noteId && x.userId == uid) = true
    · rw [if_pos hmatch] at hx
      rw [← hx]
    · rw [if_neg hmatch] at hx
      subst hx
      simp [hid, huid] at hmatch
  refine ⟨?_, ?_, hupdate, fun n hn hid huid => hupdate .undef n hn hid huid⟩
  · intro v
    cases v with
    | undef => simp [isPublicCoerce]
    | str s => simp [isPublicCoerce]
    | jbool b => cases b <;> simp [isPublicCoerce]
  · intro v n hn hnotin
    unfold createNote at hn
    rw [if_neg (by simp [ht, hc]), if_neg ht0, if_neg htm, if_neg hc0, if_neg hcm,
      if_neg (by simp)] at hn
    simp only [insertRows] at hn
    rcases List.mem_append.mp hn with hold | hnew
    · exact absurd hold hnotin
    · rcases List.mem_singleton.mp hnew with rfl
      rfl

/-- C10 (witness): the coercion instantiated at the boolean `true`, an
update resending `is_public = 'true'` persisting the coerced flag, and
an update without `is_public` on a public note making it private. -/
theorem isPublic_coercion_witness :
    isPublicCoerce (.jbool true) = true
    ∧ (∀ n ∈ (updateNote db10c [] 1 1 (some "T2") (some "C2") (.str "true") [] none).db.notes,
        n.id = 1 → n.userId = 1 → n.isPublic = isPublicCoerce (.str "true"))
    ∧ ∀ n ∈ (updateNote db10c [] 1 1 (some "T2") (some "C2") .undef [] none).db.notes,
        n.id = 1 → n.userId = 1 → n.isPublic = false := by
  have h := isPublic_coercion db10c [] 1 1 (some "T2") (some "C2")
      (by decide) (by decide) (by decide) (by decide) (by decide) (by decide) (by decide)
  exact ⟨(h.1 (.jbool true)).mpr (Or.inr rfl), h.2.2.1 (.str "true"), h.2.2.2⟩

/-! ## C6: validation rejection commits nothing -/

theorem createNote_badRequest :
    ∀ (db : DB) (disk : List String) (uid : Nat) (t c : Option String) (pub : JVal)
      (files : List FilePayload) (failAt : Option Nat) (m : String),
      (createNote db disk uid t c pub files failAt).res = .badRequest m →
      (createNote db disk uid t c pub files failAt).db = db
      ∧ (createNote db disk uid t c pub files failAt).disk = cleanupFiles files disk := by
  intro db disk uid t c pub files failAt m
  unfold createNote
  dsimp only
  repeat' split
  all_goals intro h
  all_goals first
    | exact ⟨rfl, rfl⟩
    | simp at h

theorem updateNote_badRequest :
    ∀ (db : DB) (disk : List String) (noteId uid : Nat) (t c : Option String) (pub : JVal)
      (files : List FilePayload) (failAt : Option Nat) (m : String),
      (updateNote db disk noteId uid t c pub files failAt).res = .badRequest m →
      (updateNote db disk noteId uid t c pub files failAt).db = db
      ∧ (updateNote db disk noteId uid t c pub files failAt).disk = cleanupFiles files disk := by
  intro db disk noteId uid t c pub files failAt m
  unfold updateNote
  dsimp only
  repeat' split
  all_goals intro h
  all_goals first
    | exact ⟨rfl, rfl⟩
    | simp at h

/-- C6.  Whenever the full `POST /` or `PUT /:id` pipeline rejects a
request with a 400 — a multer rejection (filter, size, count) or a
handler validation failure (missing / empty / oversized title or
content) — the database is unchanged and no file of the batch remains
on disk (given that the batch's stored paths were fresh). -/
theorem validation_rejection_commits_nothing
    (db : DB) (disk : List String) (noteId uid : Nat) (t c : Option String) (pub : JVal)
    (files : List FilePayload) (failAt : Option Nat) (m : String)
    (hfresh : ∀ f ∈ files, fpath f ∉ disk) :
    ((postNotes db disk uid t c pub files failAt).res = .badRequest m →
      (postNotes db disk uid t c pub files failAt).db = db
      ∧ ∀ f ∈ files, fpath f ∉ (postNotes db disk uid t c pub files failAt).disk)
    ∧ ((putNotes db disk noteId uid t c pub files failAt).res = .badRequest m →
      (putNotes db disk noteId uid t c pub files failAt).db = db
      ∧ ∀ f ∈ files, fpath f ∉ (putNotes db disk noteId uid t c pub files failAt).disk) := by
  constructor
  · intro hres
    unfold postNotes at hres ⊢
    by_cases hm : multerOk files = true
    · rw [if_pos hm] at hres ⊢
      have h := createNote_badRequest db (disk ++ files.map fpath) uid t c pub files failAt m hres
      refine ⟨h.1, ?_⟩
      rw [h.2]
      intro f hf
      exact fpath_not_mem_cleanupFiles files _ f hf
    · rw [if_neg hm] at hres ⊢
      exact ⟨rfl, hfresh⟩
  · intro hres
    unfold putNotes at hres ⊢
    by_cases hm : multerOk files = true
    · rw [if_pos hm] at hres ⊢
      have h := updateNote_badRequest db (disk ++ files.map fpath) noteId uid t c pub files
        failAt m hres
      refine ⟨h.1, ?_⟩
      rw [h.2]
      intro f hf
      exact fpath_not_mem_cleanupFiles files _ f hf
    · rw [if_neg hm] at hres ⊢
      exact ⟨rfl, hfresh⟩

/-- C6 (witness): a concrete create and a concrete update, each with a
missing title and one uploaded file — 400, database untouched, file
not on disk. -/
theorem validation_rejection_commits_nothing_witness :
    ((postNotes db0 [] 1 none (some "C") .undef [f0c] none).db = db0
      ∧ ∀ f ∈ [f0c], fpath f ∉ (postNotes db0 [] 1 none (some "C") .undef [f0c] none).disk)
    ∧ ((putNotes db0 [] 1 1 none (some "C") .undef [f0c] none).db = db0
      ∧ ∀ f ∈ [f0c], fpath f ∉ (putNotes db0 [] 1 1 none (some "C") .undef [f0c] none).disk) := by
  have h := validation_rejection_commits_nothing db0 [] 1 1 none (some "C") .undef [f0c] none
      "Title and content are required" (by decide)
  exact ⟨h.1 (by rfl), h.2 (by rfl)⟩

/-! ## C2: stored-path sanitization confines, rather than rejects -/

/-- C2 (counterexample).  The stored path
`/attachments/../attachments/x.png` contains a `../` sequence and is an
absolute-style path, yet the sanitization step accepts it (its
normalization resolves inside the root) and the delete handler performs
an existence check and an unlink driven by it — the claim's "always
rejected, no filesystem operation" is false. -/
theorem c2_counterexample :
    p0 = "/attachments/" ++ "../" ++ "attachments/x.png"
    ∧ jsStartsWith p0 "/" = true
    ∧ pathAccepted p0 = true
    ∧ (deleteNote db2c [sanitizedJoin p0] 1 1 []).fsOps
        = [.existsSync (sanitizedJoin p0), .unlinkSync (sanitizedJoin p0)]
    ∧ (deleteNote db2c [sanitizedJoin p0] 1 1 []).res = .deleted :=
  ⟨rfl, rfl, rfl, rfl, rfl⟩

set_option maxHeartbeats 4000000 in
/-- C2 (amended).  Every filesystem operation (existence check or
unlink) driven by a database-held path during note deletion or
attachment deletion is performed on a path whose resolution starts
with the resolved public root: stored paths containing `../` sequences
or absolute-path overrides are not rejected outright, but normalized,
stripped of leading `../` and joined under the public root, and the
resolved-prefix guard skips any path that would escape. -/
theorem deleteOps_confined :
    (∀ (db : DB) (disk : List String) (noteId uid : Nat) (failUnlink : List String),
      ∀ op ∈ (deleteNote db disk noteId uid failUnlink).fsOps,
        jsStartsWith (resolve1 (FsOp.path op)) resolvedPublicDir = true)
    ∧ (∀ (db : DB) (disk : List String) (noteId attId uid : Nat) (failUnlink : List String),
      ∀ op ∈ (deleteAttachment db disk noteId attId uid failUnlink).fsOps,
        jsStartsWith (resolve1 (FsOp.path op)) resolvedPublicDir = true) := by
  constructor
  · intro db disk noteId uid failUnlink op hop
    unfold deleteNote at hop
    dsimp only at hop
    by_cases howner : (!ownerCheck db noteId uid) = true
    · rw [if_pos howner] at hop
      cases hop
    · rw [if_neg howner] at hop
      split at hop
      · exact unlinkAll_ops_inside _ disk failUnlink op hop
      · exact unlinkAll_ops_inside _ disk failUnlink op hop
  · intro db disk noteId attId uid failUnlink op hop
    unfold deleteAttachment at hop
    dsimp only at hop
    by_cases howner : (!ownerCheck db noteId uid) = true
    · rw [if_pos howner] at hop
      cases hop
    · rw [if_neg howner] at hop
      split at hop
      · cases hop
      · split at hop
        · exact unlinkStep_ops_inside disk failUnlink _ op hop
        · exact unlinkStep_ops_inside disk failUnlink _ op hop

set_option maxHeartbeats 2000000 in
/-- C2 (witness): the confinement theorem applied to the concrete
existence check of the counterexample run. -/
theorem deleteOps_confined_witness :
    jsStartsWith (resolve1 (FsOp.path (.existsSync (sanitizedJoin p0)))) resolvedPublicDir
      = true :=
  deleteOps_confined.1 db2c [sanitizedJoin p0] 1 1 [] _ (by decide)

/-! ## C3: RemoveAttachment on a corrupted stored path -/

/-- C3 (counterexample).  With the stored path `../../etc/passwd` in
the row, the handler does perform a filesystem call (an existence
check, on the stripped path re-rooted inside the public directory),
deletes the metadata row, and reports success — not NotFound. -/
theorem c3_counterexample :
    (deleteAttachment db3c [] 1 1 1 []).res = .deleted
    ∧ (deleteAttachment db3c [] 1 1 1 []).res ≠ .attachmentNotFound
    ∧ (deleteAttachment db3c [] 1 1 1 []).res ≠ .noteNotFound
    ∧ (deleteAttachment db3c [] 1 1 1 []).fsOps
        = [.existsSync "/srv/app/public/etc/passwd"]
    ∧ (deleteAttachment db3c [] 1 1 1 []).db.attachments = [] :=
  ⟨rfl, by decide, by decide, rfl, rfl⟩

/-- C3 (amended).  When the attachment row's stored path is the
corrupted `../../etc/passwd` (and the re-rooted file is absent), the
handler strips the leading `../` sequences, confines the result inside
the public root, performs only an existence check there — never
touching `/etc/passwd` itself — deletes the metadata row and reports
success rather than NotFound. -/
theorem removeAttachment_corrupted_path
    (db : DB) (disk : List String) (noteId attId uid : Nat) (failUnlink : List String)
    (row : AttachmentRow)
    (howner : ownerCheck db noteId uid = true)
    (hfind : db.attachments.find? (fun a => a.id == attId && a.noteId == noteId) = some row)
    (hpath : row.filePath = "../../etc/passwd")
    (hdisk : ("/srv/app/public/etc/passwd" : String) ∈ disk → False) :
    (deleteAttachment db disk noteId attId uid failUnlink).res = .deleted
    ∧ (deleteAttachment db disk noteId attId uid failUnlink).fsOps
        = [.existsSync "/srv/app/public/etc/passwd"]
    ∧ (∀ op ∈ (deleteAttachment db disk noteId attId uid failUnlink).fsOps,
        FsOp.path op ≠ "/etc/passwd")
    ∧ (deleteAttachment db disk noteId attId uid failUnlink).db.attachments
        = db.attachments.filter (fun a => !(a.id == attId && a.noteId == noteId)) := by
  have hsj : sanitizedJoin "../../etc/passwd" = "/srv/app/public/etc/passwd" := rfl
  have hacc : pathAccepted "../../etc/passwd" = true := rfl
  have hcont : disk.contains ("/srv/app/public/etc/passwd" : String) = false := by
    by_cases hc : disk.contains ("/srv/app/public/etc/passwd" : String) = true
    · exact absurd (List.elem_iff.mp hc) hdisk
    · simpa using hc
  have hstep : unlinkStep disk failUnlink row.filePath
      = ⟨[.existsSync "/srv/app/public/etc/passwd"], disk, false⟩ := by
    rw [hpath]
    have h := @unlinkStep_eq_notOnDisk disk failUnlink "../../etc/passwd"
      hacc (by rw [hsj]; exact hcont)
    rw [hsj] at h
    exact h
  unfold deleteAttachment
  rw [if_neg (by simp [howner]), hfind]
  dsimp only
  rw [hstep]
  refine ⟨rfl, rfl, ?_, rfl⟩
  intro op hop
  have hop2 : op = FsOp.existsSync "/srv/app/public/etc/passwd" := by
    simpa using hop
  subst hop2
  decide

/-- C3 (witness): the amended theorem at the concrete corrupted row. -/
theorem removeAttachment_corrupted_path_witness :
    (deleteAttachment db3c [] 1 1 1 []).res = .deleted
    ∧ (deleteAttachment db3c [] 1 1 1 []).fsOps
        = [.existsSync "/srv/app/public/etc/passwd"] := by
  have h := removeAttachment_corrupted_path db3c [] 1 1 1 []
      ⟨1, 1, "orig", "st", "../../etc/passwd", 3, "text/plain"⟩
      (by rfl) (by rfl) rfl (fun h => by cases h)
  exact ⟨h.1, h.2.1⟩

/-! ## C7: note deletion order, failure handling, idempotence -/

/-- C7 (counterexample).  With an unlink failure injected on the
note's single blob, the delete responds with a server error and the
note row (and attachment row) survive: the blob deletion runs *before*
the metadata deletion, and a blob-delete failure prevents the metadata
deletion instead of leaving the successful response unchanged. -/
theorem c7_counterexample :
    (deleteNote db7c [sanitizedJoin "/attachments/a.png"] 1 1
        [sanitizedJoin "/attachments/a.png"]).res = .serverError
    ∧ (deleteNote db7c [sanitizedJoin "/attachments/a.png"] 1 1
        [sanitizedJoin "/attachments/a.png"]).db = db7c
    ∧ (deleteNote db7c [sanitizedJoin "/attachments/a.png"] 1 1
        [sanitizedJoin "/attachments/a.png"]).disk = [sanitizedJoin "/attachments/a.png"] :=
  ⟨rfl, rfl, rfl⟩

/-- C7 (amended).  Note deletion checks ownership, then deletes each
attachment blob (confined to the root), and only then removes the note
row, whose cascade removes the attachment rows.  A blob unlink failure
surfaces a server error *before* the metadata is removed, leaving the
database unchanged.  On success the note row and its attachment rows
are gone, every accepted blob path of the note is gone from disk, and
deleting the same id again returns NotFound with no side effects. -/
theorem deleteNote_behavior (db : DB) (disk : List String) (noteId uid : Nat)
    (failUnlink : List String) :
    (ownerCheck db noteId uid = false →
      deleteNote db disk noteId uid failUnlink = ⟨.notFound, db, disk, []⟩)
    ∧ ((deleteNote db disk noteId uid failUnlink).res = .serverError →
      (deleteNote db disk noteId uid failUnlink).db = db)
    ∧ ((deleteNote db disk noteId uid failUnlink).res = .deleted →
      (deleteNote db disk noteId uid failUnlink).db.notes
          = db.notes.filter (fun n => !(n.id == noteId && n.userId == uid))
      ∧ (deleteNote db disk noteId uid failUnlink).db.attachments
          = db.attachments.filter (fun a => !(a.noteId == noteId))
      ∧ (∀ a ∈ db.attachments, a.noteId = noteId → pathAccepted a.filePath = true →
          sanitizedJoin a.filePath ∉ (deleteNote db disk noteId uid failUnlink).disk)
      ∧ deleteNote (deleteNote db disk noteId uid failUnlink).db
            (deleteNote db disk noteId uid failUnlink).disk noteId uid failUnlink
          = ⟨.notFound, (deleteNote db disk noteId uid failUnlink).db,
             (deleteNote db disk noteId uid failUnlink).disk, []⟩) := by
  cases hov : ownerCheck db noteId uid with
  | false =>
    have hrun : deleteNote db disk noteId uid failUnlink = ⟨.notFound, db, disk, []⟩ := by
      unfold deleteNote
      rw [if_pos (by simp [hov])]
    refine ⟨fun _ => hrun, ?_, ?_⟩
    · intro hres
      rw [hrun] at hres
      simp at hres
    · intro hres
      rw [hrun] at hres
      simp at hres
  | true =>
    have hrw : deleteNote db disk noteId uid failUnlink
        = (if (unlinkAll ((db.attachments.filter (fun a => a.noteId == noteId)).map
              (fun a => a.filePath)) disk failUnlink).threw = true then
            ⟨.serverError, db,
              (unlinkAll ((db.attachments.filter (fun a => a.noteId == noteId)).map
                (fun a => a.filePath)) disk failUnlink).disk,
              (unlinkAll ((db.attachments.filter (fun a => a.noteId == noteId)).map
                (fun a => a.filePath)) disk failUnlink).ops⟩
          else
            ⟨.deleted,
              { db with
                notes := db.notes.filter (fun n => !(n.id == noteId && n.userId == uid)),
                attachments := db.attachments.filter (fun a => !(a.noteId == noteId)) },
              (unlinkAll ((db.attachments.filter (fun a => a.noteId == noteId)).map
                (fun a => a.filePath)) disk failUnlink).disk,
              (unlinkAll ((db.attachments.filter (fun a => a.noteId == noteId)).map
                (fun a => a.filePath)) disk failUnlink).ops⟩) := by
      unfold deleteNote
      rw [if_neg (by simp [hov])]
    refine ⟨fun hfalse => absurd hfalse (by simp [hov]), ?_, ?_⟩
    · intro hres
      by_cases ht : (unlinkAll ((db.attachments.filter (fun a => a.noteId == noteId)).map
          (fun a => a.filePath)) disk failUnlink).threw = true
      · rw [hrw, if_pos ht]
      · rw [hrw, if_neg ht] at hres
        simp at hres
    · intro hres
      by_cases ht : (unlinkAll ((db.attachments.filter (fun a => a.noteId == noteId)).map
          (fun a => a.filePath)) disk failUnlink).threw = true
      · rw [hrw, if_pos ht] at hres
        simp at hres
      · have hdel : deleteNote db disk noteId uid failUnlink
            = ⟨.deleted,
              { db with
                notes := db.notes.filter (fun n => !(n.id == noteId && n.userId == uid)),
                attachments := db.attachments.filter (fun a => !(a.noteId == noteId)) },
              (unlinkAll ((db.attachments.filter (fun a => a.noteId == noteId)).map
                (fun a => a.filePath)) disk failUnlink).disk,
              (unlinkAll ((db.attachments.filter (fun a => a.noteId == noteId)).map
                (fun a => a.filePath)) disk failUnlink).ops⟩ := by
          rw [hrw, if_neg ht]
        have hown2 : ownerCheck
            { db with
              notes := db.notes.filter (fun n => !(n.id == noteId && n.userId == uid)),
              attachments := db.attachments.filter (fun a => !(a.noteId == noteId)) }
            noteId uid = false := by
          unfold ownerCheck
          rw [List.any_eq_false]
          intro x hx
          have h2 := (List.mem_filter.mp hx).2
          have h3 : ¬x.id = noteId ∨ ¬x.userId = uid := by simpa using h2
          intro hcontra
          rcases h3 with h3 | h3
          · simp [h3] at hcontra
          · simp [h3] at hcontra
        refine ⟨by rw [hdel], by rw [hdel], ?_, ?_⟩
        · intro a ha hnid hacc
          rw [hdel]
          exact unlinkAll_removes _ disk failUnlink (by simpa using ht) a.filePath
            (List.mem_map.mpr ⟨a, List.mem_filter.mpr ⟨ha, by simp [hnid]⟩, rfl⟩) hacc
        · rw [hdel]
          unfold deleteNote
          rw [if_pos (by rw [hown2]; rfl)]

/-- C7 (witness): the amended theorem applied at a concrete successful
delete — the repeated delete answers NotFound with no side effects. -/
theorem deleteNote_behavior_witness :
    deleteNote (deleteNote db7c [sanitizedJoin "/attachments/a.png"] 1 1 []).db
        (deleteNote db7c [sanitizedJoin "/attachments/a.png"] 1 1 []).disk 1 1 []
      = ⟨.notFound, (deleteNote db7c [sanitizedJoin "/attachments/a.png"] 1 1 []).db,
         (deleteNote db7c [sanitizedJoin "/attachments/a.png"] 1 1 []).disk, []⟩ := by
  exact ((deleteNote_behavior db7c [sanitizedJoin "/attachments/a.png"] 1 1 []).2.2
    (by rfl)).2.2.2

/-! ## C8: both whitelists are required -/

theorem splitLastDot_none : ∀ cs : List Char, splitLastDot cs = none → '.' ∉ cs := by
  intro cs
  induction cs with
  | nil =>
    intro _ h
    cases h
  | cons c rest ih =>
    intro hn hmem
    unfold splitLastDot at hn
    cases hrec : splitLastDot rest with
    | some p =>
      obtain ⟨pre, post⟩ := p
      rw [hrec] at hn
      simp at hn
    | none =>
      rw [hrec] at hn
      by_cases hc : c = '.'
      · rw [if_pos hc] at hn
        simp at hn
      · rcases List.mem_cons.mp hmem with rfl | hmem2
        · exact hc rfl
        · exact ih hrec hmem2

theorem splitLastDot_post :
    ∀ (cs pre post : List Char), splitLastDot cs = some (pre, post) → '.' ∉ post := by
  intro cs
  induction cs with
  | nil =>
    intro pre post h
    cases h
  | cons c rest ih =>
    intro pre post h
    unfold splitLastDot at h
    cases hrec : splitLastDot rest with
    | some p =>
      obtain ⟨p1, p2⟩ := p
      rw [hrec] at h
      simp only [Option.some.injEq, Prod.mk.injEq] at h
      obtain ⟨_, h2⟩ := h
      subst h2
      exact ih p1 _ hrec
    | none =>
      rw [hrec] at h
      by_cases hc : c = '.'
      · rw [if_pos hc] at h
        simp only [Option.some.injEq, Prod.mk.injEq] at h
        obtain ⟨_, h2⟩ := h
        subst h2
        exact splitLastDot_none _ hrec
      · rw [if_neg hc] at h
        cases h

theorem extname_shape (s : String) :
    extname s = "" ∨ ∃ post : List Char, (extname s).data = '.' :: post ∧ '.' ∉ post := by
  unfold extname
  dsimp only
  by_cases hdd : lastSegChars s.data = ['.', '.']
  · rw [if_pos hdd]
    left
    rfl
  · rw [if_neg hdd]
    cases hsplit : splitLastDot (lastSegChars s.data) with
    | none =>
      left
      rfl
    | some p =>
      obtain ⟨pre, post⟩ := p
      cases pre with
      | nil =>
        left
        rfl
      | cons a as =>
        right
        exact ⟨post, rfl, splitLastDot_post _ _ _ hsplit⟩

theorem toLower_eq_dot : ∀ c : Char, c.toLower = '.' → c = '.' := by
  intro c h
  unfold Char.toLower at h
  dsimp only at h
  split at h
  · exfalso
    rename_i hrange
    have hvalid : (c.toNat + 32).isValidChar := Or.inl (by omega)
    have hval : (Char.ofNat (c.toNat + 32)).toNat = c.toNat + 32 := by
      rw [Char.ofNat, dif_pos hvalid]
      rfl
    rw [h] at hval
    have h46 : ('.' : Char).toNat = 46 := rfl
    rw [h46] at hval
    omega
  · exact h

theorem dot_suffix_iff {e post : List Char} (he : '.' ∈ e) (hp : '.' ∉ post) :
    (e.isSuffixOf ('.' :: post) = true) ↔ e = '.' :: post := by
  rw [List.isSuffixOf_iff_suffix]
  constructor
  · rintro ⟨t, ht⟩
    cases t with
    | nil => simpa using ht
    | cons c t2 =>
      exfalso
      rw [List.cons_append] at ht
      injection ht with h1 h2
      apply hp
      rw [← h2]
      exact List.mem_append.mpr (Or.inr he)
  · rintro rfl
    exact List.suffix_refl _

theorem allowedExtTest_iff (s : String)
    (hs : s = "" ∨ ∃ post : List Char, s.data = '.' :: post ∧ '.' ∉ post) :
    (allowedExtTest s = true) ↔ String.mk (s.data.map Char.toLower) ∈ allowedExtSuffixes := by
  rcases hs with rfl | ⟨post, hdata, hpost⟩
  · decide
  · unfold allowedExtTest
    rw [hdata]
    have hmap : ('.' :: post).map Char.toLower = '.' :: post.map Char.toLower := rfl
    rw [hmap]
    have hpost2 : '.' ∉ post.map Char.toLower := by
      intro hmem
      rcases List.mem_map.mp hmem with ⟨c, hc, hceq⟩
      exact hpost (toLower_eq_dot c hceq ▸ hc)
    rw [List.any_eq_true]
    have hdotall : ∀ x ∈ allowedExtSuffixes, '.' ∈ x.data := by decide
    constructor
    · rintro ⟨e, he, hsuf⟩
      have heq := (dot_suffix_iff (hdotall e he) hpost2).mp hsuf
      have he2 : String.mk e.data = e := rfl
      rw [← heq, he2]
      exact he
    · intro hmem
      refine ⟨String.mk ('.' :: post.map Char.toLower), hmem, ?_⟩
      rw [List.isSuffixOf_iff_suffix]

/-- C8.  The upload `fileFilter` accepts a payload exactly when the
declared MIME type is in the MIME whitelist *and* the lowercased
extension derived from the original filename is one of the whitelisted
dotted extensions; either mismatch rejects.  (The regex
`/\.(jpg|...)$/i` on `path.extname` output is equivalent to whitelist
membership of the lowercased extension, because an extname never
contains an interior dot.) -/
theorem fileFilter_both_whitelists (f : FilePayload) :
    fileFilter f = true ↔
      (f.mimetype ∈ allowedMimeTypes
       ∧ String.mk ((extname f.originalname).data.map Char.toLower) ∈ allowedExtSuffixes) := by
  unfold fileFilter
  rw [Bool.and_eq_true]
  have h1 : (allowedMimeTypes.contains f.mimetype = true) ↔ f.mimetype ∈ allowedMimeTypes :=
    ⟨fun h => List.elem_iff.mp h, fun h => List.elem_iff.mpr h⟩
  have h2 := allowedExtTest_iff (extname f.originalname) (extname_shape f.originalname)
  rw [h1, h2]

/-! ## C9: stored filename shape, sanitization and uniqueness -/

theorem digitChar_ne_dash : ∀ k : Nat, digitChar k ≠ '-' := by
  intro k
  unfold digitChar
  split <;> decide

theorem natDigitsAux_ne_dash : ∀ (fuel n : Nat), '-' ∉ natDigitsAux fuel n := by
  intro fuel
  induction fuel with
  | zero =>
    intro n h
    cases h
  | succ fuel ih =>
    intro n h
    unfold natDigitsAux at h
    by_cases hn : n < 10
    · rw [if_pos hn] at h
      simp only [List.mem_singleton] at h
      exact digitChar_ne_dash n h.symm
    · rw [if_neg hn] at h
      rcases List.mem_append.mp h with h2 | h2
      · exact ih _ h2
      · simp only [List.mem_singleton] at h2
        exact digitChar_ne_dash _ h2.symm

theorem natDigits_ne_dash (n : Nat) : '-' ∉ natDigits n :=
  natDigitsAux_ne_dash (n + 1) n

theorem digitsVal_append_single (l : List Char) (c : Char) :
    digitsVal (l ++ [c]) = (digitsVal l) * 10 + digitVal c := by
  simp [digitsVal, List.foldl_append]

theorem natDigitsAux_val : ∀ (fuel n : Nat), n < fuel → digitsVal (natDigitsAux fuel n) = n := by
  intro fuel
  induction fuel with
  | zero =>
    intro n h
    exact absurd h (Nat.not_lt_zero n)
  | succ fuel ih =>
    intro n h
    unfold natDigitsAux
    by_cases hn : n < 10
    · rw [if_pos hn]
      have hd : ∀ k, k < 10 → digitVal (digitChar k) = k := by decide
      simp [digitsVal, hd n hn]
    · rw [if_neg hn]
      have hdiv : n / 10 < fuel := by
        have h1 : n / 10 < n := Nat.div_lt_self (by omega) (by omega)
        omega
      have hrec := ih (n / 10) hdiv
      have hd : ∀ k, k < 10 → digitVal (digitChar k) = k := by decide
      have hmod : digitVal (digitChar (n % 10)) = n % 10 := hd _ (Nat.mod_lt _ (by omega))
      rw [digitsVal_append_single, hrec, hmod]
      omega

theorem natToStr_inj {m n : Nat} (h : natToStr m = natToStr n) : m = n := by
  have h3 : natDigits m = natDigits n := congrArg String.data h
  have h1 : digitsVal (natDigits m) = m := natDigitsAux_val (m + 1) m (by omega)
  have h2 : digitsVal (natDigits n) = n := natDigitsAux_val (n + 1) n (by omega)
  rw [← h1, ← h2, h3]

theorem dashFree_sep : ∀ (a b xs ys : List Char), '-' ∉ a → '-' ∉ b →
    a ++ '-' :: xs = b ++ '-' :: ys → a = b ∧ xs = ys := by
  intro a
  induction a with
  | nil =>
    intro b xs ys _ hb h
    cases b with
    | nil => simpa using h
    | cons c bs =>
      rw [List.nil_append, List.cons_append] at h
      injection h with h1 h2
      exfalso
      apply hb
      rw [← h1]
      exact List.mem_cons_self _ _
  | cons c as ih =>
    intro b xs ys ha hb h
    cases b with
    | nil =>
      rw [List.cons_append, List.nil_append] at h
      injection h with h1 h2
      exfalso
      apply ha
      rw [h1]
      exact List.mem_cons_self _ _
    | cons d bs =>
      rw [List.cons_append, List.cons_append] at h
      injection h with h1 h2
      have hrec := ih bs xs ys (fun hm => ha (List.mem_cons_of_mem _ hm))
        (fun hm => hb (List.mem_cons_of_mem _ hm)) h2
      exact ⟨by rw [h1, hrec.1], hrec.2⟩

theorem storedFilename_data (ts r : Nat) (name : String) :
    (storedFilename ts r name).data
      = 'n' :: 'o' :: 't' :: 'e' :: '-' ::
        (natDigits ts ++ '-' :: (natDigits r ++ '-' ::
          ((sanitizedBaseName (basenameExt name (extname name))).data
            ++ (extname name).data))) := by
  unfold storedFilename
  dsimp only
  have h1 : ("note-" : String).data = ['n', 'o', 't', 'e', '-'] := rfl
  have h2 : ("-" : String).data = ['-'] := rfl
  have h3 : ∀ n : Nat, (natToStr n).data = natDigits n := fun _ => rfl
  simp [String.data_append, h1, h2, h3, List.append_assoc]

/-- C9 (counterexample).  The storage callback *replaces*
non-alphanumeric characters of the base name by underscores — it does
not strip them: `a-b.png` is stored as `note-<ts>-<rand>-a_b.png`,
whose base name contains `'_'`, a character outside the alphanumeric
set; the spec-worded stripping would give `ab`. -/
theorem c9_counterexample :
    storedFilename 5 7 "a-b.png" = "note-5-7-a_b.png"
    ∧ sanitizedBaseName "a-b" = "a_b"
    ∧ specStrippedBaseName "a-b" = "ab"
    ∧ sanitizedBaseName "a-b" ≠ specStrippedBaseName "a-b"
    ∧ '_' ∈ (sanitizedBaseName "a-b").data
    ∧ Char.isAlphanum '_' = false :=
  ⟨rfl, rfl, rfl, by decide, by decide, by decide⟩

/-- C9 (amended).  Every stored filename has the form
`note-<timestamp>-<random>-<sanitized-base-name><ext>`, where the
sanitized base name replaces each character outside `[a-zA-Z0-9]` by
an underscore (so its characters are alphanumeric or `'_'`), and the
`<timestamp>-<random>` suffix determines the name uniquely: two
uploads with distinct (timestamp, random) pairs never collide. -/
theorem storedFilename_shape :
    (∀ (ts r : Nat) (name : String),
      storedFilename ts r name
        = "note-" ++ natToStr ts ++ "-" ++ natToStr r ++ "-"
          ++ sanitizedBaseName (basenameExt name (extname name)) ++ extname name)
    ∧ (∀ (s : String), ∀ c ∈ (sanitizedBaseName s).data, c.isAlphanum = true ∨ c = '_')
    ∧ (∀ (ts1 r1 ts2 r2 : Nat) (n1 n2 : String),
        storedFilename ts1 r1 n1 = storedFilename ts2 r2 n2 → ts1 = ts2 ∧ r1 = r2) := by
  refine ⟨fun ts r name => rfl, ?_, ?_⟩
  · intro s c hc
    rcases List.mem_map.mp hc with ⟨x, _, hx⟩
    unfold sanitizeChar at hx
    by_cases hax : x.isAlphanum = true
    · rw [if_pos hax] at hx
      subst hx
      exact Or.inl hax
    · rw [if_neg hax] at hx
      exact Or.inr hx.symm
  · intro ts1 r1 ts2 r2 n1 n2 h
    have hdata := congrArg String.data h
    rw [storedFilename_data, storedFilename_data] at hdata
    simp only [List.cons.injEq, true_and] at hdata
    obtain ⟨hts, hrest⟩ :=
      dashFree_sep _ _ _ _ (natDigits_ne_dash ts1) (natDigits_ne_dash ts2) hdata
    obtain ⟨hr, _⟩ :=
      dashFree_sep _ _ _ _ (natDigits_ne_dash r1) (natDigits_ne_dash r2) hrest
    exact ⟨natToStr_inj (congrArg String.mk hts), natToStr_inj (congrArg String.mk hr)⟩

/-- C9 (witness): the shape theorem applied at concrete inputs — the
suffix-uniqueness direction at identical names, and the character
property at a concrete sanitized name. -/
theorem storedFilename_shape_witness :
    (5 = 5 ∧ 7 = 7) ∧ (Char.isAlphanum 'a' = true ∨ 'a' = '_') :=
  ⟨storedFilename_shape.2.2 5 7 5 7 "a.png" "a.png" rfl,
   storedFilename_shape.2.1 "a" 'a' (by decide)⟩

end VibeNotes
